import Mathlib

/-!
Shallow embedding of the request-time configuration resolution and response
post-processing pipeline of the LocalAI API layer (`api/config.go` and
`api/openai.go`), together with theorems settling the specification claims.

Go float64 fields (top-p, temperature, repeat-penalty) are only ever compared
against zero and copied, never used arithmetically; they are embedded as `Rat`.
Go `int` fields are embedded as `Int`.  Maps (`ConfigMerger`, `Roles`) are
embedded as association lists with overwrite-on-insert, matching Go map
assignment and the zero-value-on-missing-key read.  File-system and model
collaborators (file reads, directory listing, model listing, template
expansion, inference) are embedded as explicit oracle structures passed in,
matching their use as opaque collaborators in the handler.
-/

namespace LocalAI

/-- Structure `Message` from `api/openai.go`: a chat message with a role and content. -/
structure Message where
  role : String
  content : String
  deriving DecidableEq, Repr

/-- Structure `OpenAIRequest` from `api/openai.go`: the request body, also embedded in
`Config` to carry generation parameters. -/
structure OpenAIRequest where
  model : String := ""
  prompt : String := ""
  stop : String := ""
  messages : List Message := []
  echo : Bool := false
  topP : Rat := 0
  topK : Int := 0
  temperature : Rat := 0
  maxtokens : Int := 0
  n : Int := 0
  batch : Int := 0
  f16 : Bool := false
  ignoreEOS : Bool := false
  repeatPenalty : Rat := 0
  keep : Int := 0
  seed : Int := 0
  deriving DecidableEq, Repr

/-- Structure `TemplateConfig` from `api/config.go`. -/
structure TemplateConfig where
  completion : String := ""
  chat : String := ""
  deriving DecidableEq, Repr

/-- Structure `Config` from `api/config.go`.  The Go struct embeds `OpenAIRequest`
(field `request` here; its fields are promoted in Go) and additionally
declares its own `F16` field, which shadows the embedded request's `F16`:
`config.F16` in the Go code always denotes the outer field `f16` here. -/
structure Config where
  request : OpenAIRequest := {}
  name : String := ""
  path : String := ""
  stopWords : List String := []
  cutstrings : List String := []
  trimSpace : List String := []
  contextSize : Int := 0
  f16 : Bool := false
  threads : Int := 0
  debug : Bool := false
  roles : List (String × String) := []
  templateConfig : TemplateConfig := {}
  deriving DecidableEq, Repr

/-- Function `defaultRequest` from `api/openai.go`: the synthesized default request
seeding a `Config` when no stored profile matches the model. -/
def defaultRequest (modelFile : String) : OpenAIRequest :=
  { topP := 7/10
    topK := 80
    maxtokens := 512
    temperature := 9/10
    model := modelFile }

/-- Function `updateConfig` from `api/openai.go`: applies the request's override fields
onto the config with non-zero-wins semantics; a non-empty `stop` is appended
to the stop-word list.  The Go function mutates `config` through a pointer;
here it returns the updated config. -/
def updateConfig (config : Config) (input : OpenAIRequest) : Config :=
  let config := if input.echo then
    { config with request.echo := input.echo } else config
  let config := if input.topK != 0 then
    { config with request.topK := input.topK } else config
  let config := if input.topP != 0 then
    { config with request.topP := input.topP } else config
  let config := if input.temperature != 0 then
    { config with request.temperature := input.temperature } else config
  let config := if input.maxtokens != 0 then
    { config with request.maxtokens := input.maxtokens } else config
  let config := if input.stop != "" then
    { config with stopWords := config.stopWords ++ [input.stop] } else config
  let config := if input.repeatPenalty != 0 then
    { config with request.repeatPenalty := input.repeatPenalty } else config
  let config := if input.keep != 0 then
    { config with request.keep := input.keep } else config
  let config := if input.batch != 0 then
    { config with request.batch := input.batch } else config
  let config := if input.f16 then
    { config with f16 := input.f16 } else config
  let config := if input.ignoreEOS then
    { config with request.ignoreEOS := input.ignoreEOS } else config
  if input.seed != 0 then
    { config with request.seed := input.seed } else config

/-- Type `ConfigMerger` from `api/config.go`: `map[string]Config`, embedded as an
association list read through `cmLookup` and written through `cmInsert`. -/
def ConfigMerger := List (String × Config)

instance : EmptyCollection ConfigMerger := ⟨([] : List (String × Config))⟩

/-- Go map read `cm[k]` with its `exists` flag: the first binding for `k`. -/
def cmLookup (cm : ConfigMerger) (k : String) : Option Config :=
  (List.find? (fun p => p.1 == k) cm).map Prod.snd

/-- Go map assignment `cm[k] = v`: overwrite the binding for `k`. -/
def cmInsert (cm : ConfigMerger) (k : String) (v : Config) : ConfigMerger :=
  (k, v) :: List.filter (fun p => p.1 != k) cm

/-- The file-system collaborator: outcomes of `os.ReadFile`+`yaml.Unmarshal`
(for a single `Config` and for a `ConfigFile` holding a list of configs),
of `ioutil.ReadDir`, and of `os.Stat` on a given path. -/
structure FileSys where
  readConfig : String → Except String Config
  readConfigFile : String → Except String (List Config)
  readDir : String → Except String (List String)
  statOk : String → Bool

/-- Path joining `filepath.Join` as used by the handler and the directory scan. -/
def pathJoin (dir file : String) : String := dir ++ "/" ++ file

/-- Predicate `strings.Contains s sub`, via substring occurrence on character lists. -/
def strContains (s sub : String) : Bool :=
  decide (sub.data <:+: s.data)

/-- Method `ConfigMerger.LoadConfigFile` from `api/config.go`: read a single-profile
file and insert it keyed by its (possibly empty) parsed name. -/
def LoadConfigFile (fs : FileSys) (cm : ConfigMerger) (file : String) :
    Except String ConfigMerger :=
  match fs.readConfig file with
  | .error e => .error ("cannot read config file: " ++ e)
  | .ok c => .ok (cmInsert cm c.name c)

/-- Method `ConfigMerger.LoadConfig` from `api/config.go`: read a multi-profile file
and insert every contained config keyed by its name, in order. -/
def LoadConfig (fs : FileSys) (cm : ConfigMerger) (file : String) :
    Except String ConfigMerger :=
  match fs.readConfigFile file with
  | .error e => .error ("cannot read config file: " ++ e)
  | .ok cs => .ok (cs.foldl (fun m c => cmInsert m c.name c) cm)

/-- Method `ConfigMerger.LoadConfigs` from `api/config.go`: list the directory,
keep file names containing ".yaml", and insert each file that parses;
per-file parse failures are skipped, only the listing failure propagates. -/
def LoadConfigs (fs : FileSys) (cm : ConfigMerger) (path : String) :
    Except String ConfigMerger :=
  match fs.readDir path with
  | .error e => .error e
  | .ok files => .ok (files.foldl (fun m f =>
      if strContains f ".yaml" then
        match fs.readConfig (pathJoin path f) with
        | .ok c => cmInsert m c.name c
        | .error _ => m
      else m) cm)

/-- The characters trimmed by Go `strings.TrimSpace` for ASCII input. -/
def goIsSpace (c : Char) : Bool :=
  c = ' ' || c = '\t' || c = '\n' || c = '\x0b' || c = '\x0c' || c = '\r'

/-- Go `strings.TrimSpace`: drop leading and trailing whitespace. -/
def goTrimSpace (s : String) : String :=
  ⟨(((s.data.dropWhile goIsSpace).reverse.dropWhile goIsSpace).reverse)⟩

/-- Go `strings.TrimPrefix s pre`: strip `pre` once if `s` starts with it. -/
def trimPref (s pre : String) : String :=
  if pre.data.isPrefixOf s.data then ⟨s.data.drop pre.data.length⟩ else s

/-- Semantics of `regexp.ReplaceAllString text ""` for a pattern of literal characters:
delete the leftmost match, resume after it, keep unmatched characters.
Cut-string patterns are embedded at this literal fragment of Go regexps.
`fuel` bounds the recursion; every step consumes at least one character, so
`fuel = length of the text` (as supplied by `removeAllL`) is exact. -/
def removeAllAux (pat : List Char) : Nat → List Char → List Char
  | _, [] => []
  | 0, s => s
  | fuel + 1, c :: rest =>
    if !pat.isEmpty && pat.isPrefixOf (c :: rest) then
      removeAllAux pat fuel (rest.drop (pat.length - 1))
    else
      c :: removeAllAux pat fuel rest

/-- Removal of all leftmost non-overlapping matches of a literal pattern. -/
def removeAllL (pat s : List Char) : List Char :=
  removeAllAux pat s.length s

/-- String version of `removeAllL`. -/
def removeAllStr (pat s : String) : String := ⟨removeAllL pat.data s.data⟩

/-- The cut-string pass of the per-sample loop in `openAIEndpoint`: remove all
matches of each configured cut-string, in order. -/
def applyCuts (cuts : List String) (s : String) : String :=
  cuts.foldl (fun acc c => removeAllStr c acc) s

/-- The trim pass of the per-sample loop: for each configured trim string,
strip it as a prefix and trim surrounding whitespace. -/
def applyTrims (trims : List String) (s : String) : String :=
  trims.foldl (fun acc c => goTrimSpace (trimPref acc c)) s

/-- The per-sample post-processing of `openAIEndpoint`: echo-prepend the
(templated) input if configured, then cut-string removal, then trimming. -/
def postProcess (config : Config) (predInput pred : String) : String :=
  let pred := if config.request.echo then predInput ++ pred else pred
  applyTrims config.trimSpace (applyCuts config.cutstrings pred)

/-- The model-loader collaborator (`pkg/model`, opaque to this layer):
model path, existence test, listing, and template expansion. -/
structure Loader where
  modelPath : String
  existsInModelPath : String → Bool
  listModels : Except String (List String)
  templateExpand : String → String → Except String String

/-- The inference collaborator: `ModelInference(input, loader, config)`
returns a stateful zero-argument closure producing one sample per call, or an
error.  The closure is embedded as a function of its invocation index. -/
structure InferenceEngine where
  create : String → Config → Except String (Nat → Except String String)

/-- The error outcomes of one request handled by `openAIEndpoint`. -/
inductive ReqError where
  | noModel
  | configLoad (msg : String)
  | inferenceCreate (msg : String)
  | inference (msg : String)
  deriving DecidableEq, Repr

/-- Condition `bearerExists` in `openAIEndpoint`: the bearer value is non-empty and
names a model existing in the model path. -/
def bearerOk (l : Loader) (bearer : String) : Bool :=
  bearer != "" && l.existsInModelPath bearer

/-- The model listing with its error discarded, as read by the handler's
assignment with a discarded error binder (a failed listing yields the empty
list). -/
def modelsOf (l : Loader) : List String :=
  match l.listModels with
  | .ok ms => ms
  | .error _ => []

/-- Step 1 of `openAIEndpoint`: determine the effective model identifier.
`bearer` is the authorization-derived value (the header after Go's trimming).
If no request model is given and the bearer does not name an existing model,
fall back to the first listed model or fail; an existing bearer model then
takes precedence over everything. -/
def selectModel (l : Loader) (inputModel bearer : String) : Except ReqError String :=
  let bEx := bearerOk l bearer
  let step : Except ReqError String :=
    if inputModel = "" && !bEx then
      match modelsOf l with
      | [] => .error .noModel
      | m :: _ => .ok m
    else .ok inputModel
  match step with
  | .error e => .error e
  | .ok mf => .ok (if bEx then bearer else mf)

/-- Step 2 of `openAIEndpoint`: if `<modelPath>/<modelFile>.yaml` exists,
load it into the store via `LoadConfig`; a load failure fails the request.
On failure the store is unchanged (the Go map is only written after a
successful parse). -/
def loadCompanion (fs : FileSys) (l : Loader) (cm : ConfigMerger)
    (modelFile : String) : Except ReqError ConfigMerger :=
  let modelConfig := pathJoin l.modelPath (modelFile ++ ".yaml")
  if fs.statOk modelConfig then
    match LoadConfig fs cm modelConfig with
    | .error e => .error (.configLoad e)
    | .ok cm2 => .ok cm2
  else .ok cm

/-- Step 3 of `openAIEndpoint`: look up the model in the store (copying the
entry out) or synthesize the default config. -/
def lookupOrDefault (cm : ConfigMerger) (modelFile : String) : Config :=
  match cmLookup cm modelFile with
  | none => { request := defaultRequest modelFile }
  | some cfg => cfg

/-- Step 5 of `openAIEndpoint`: the server-wide forced values, each applied
only when non-zero/true. -/
def applyForced (config : Config) (threads ctx : Int) (f16 : Bool) : Config :=
  let config := if threads != 0 then { config with threads := threads } else config
  let config := if ctx != 0 then { config with contextSize := ctx } else config
  if f16 then { config with f16 := true } else config

/-- Steps 3-5 of config resolution: store lookup (or default), request
overrides, then forced server values.  Total: no error path. -/
def resolveConfig (cm : ConfigMerger) (modelFile : String)
    (input : OpenAIRequest) (threads ctx : Int) (f16 : Bool) : Config :=
  applyForced (updateConfig (lookupOrDefault cm modelFile) input) threads ctx f16

/-- Go map read `config.Roles[r]`: the bound label, or "" when absent. -/
def rolesGet (roles : List (String × String)) (k : String) : String :=
  ((List.find? (fun p => p.1 == k) roles).map Prod.snd).getD ""

/-- The prompt construction of `openAIEndpoint`: in chat mode, remap each
message role through the roles table (falling back to the role itself) and
join "<label> <content>" lines; otherwise use the raw prompt. -/
def buildPredInput (config : Config) (input : OpenAIRequest) (chat : Bool) : String :=
  if chat then
    String.intercalate "\n" (input.messages.map (fun i =>
      let r := rolesGet config.roles i.role
      let r := if r = "" then i.role else r
      r ++ " " ++ i.content))
  else input.prompt

/-- Template-name selection in `openAIEndpoint`: the chat template in chat
mode and the completion template in completion mode, when non-empty;
otherwise the resolved config's model identifier. -/
def templateFileOf (config : Config) (chat : Bool) : String :=
  let tf := config.request.model
  let tf := if config.templateConfig.chat != "" && chat then
    config.templateConfig.chat else tf
  if config.templateConfig.completion != "" && !chat then
    config.templateConfig.completion else tf

/-- Template expansion in `openAIEndpoint`: on success the expanded text
replaces the input; on failure the original input is kept and no error is
raised. -/
def applyTemplate (l : Loader) (tf predInput : String) : String :=
  match l.templateExpand tf predInput with
  | .ok t => t
  | .error _ => predInput

/-- Structure `Choice` from `api/openai.go`. -/
structure Choice where
  index : Int := 0
  finishReason : String := ""
  message : Option Message := none
  text : String := ""
  deriving DecidableEq, Repr

/-- Choice assembly: chat mode wraps the sample as an assistant message,
completion mode as plain text. -/
def mkChoice (chat : Bool) (pred : String) : Choice :=
  if chat then { message := some { role := "assistant", content := pred } }
  else { text := pred }

/-- Structure `OpenAIResponse` from `api/openai.go`. -/
structure OpenAIResponse where
  created : Int := 0
  object : String := ""
  id : String := ""
  model : String := ""
  choices : List Choice := []
  deriving DecidableEq, Repr

/-- The sampling loop `for i := 0; i < n; i++` of `openAIEndpoint`, started
at index `i` with `fuel` iterations left.  Returns the ordered list of
invocation indices actually performed and either the ordered post-processed
choices or the first inference error (which stops the loop immediately). -/
def genLoop (pf : Nat → Except String String) (config : Config)
    (predInput : String) (chat : Bool) :
    Nat → Nat → List Nat × Except String (List Choice)
  | _, 0 => ([], .ok [])
  | i, fuel + 1 =>
    match pf i with
    | .error e => ([i], .error e)
    | .ok pred =>
      let c := mkChoice chat (postProcess config predInput pred)
      let (tr, rest) := genLoop pf config predInput chat (i + 1) fuel
      (i :: tr, rest.map (fun l => c :: l))

/-- The effective sample count: the request's N, with zero treated as 1. -/
def effectiveN (n : Int) : Int := if n = 0 then 1 else n

/-- The whole sampling phase: run the loop `effectiveN n` times from 0. -/
def genSamples (pf : Nat → Except String String) (config : Config)
    (predInput : String) (chat : Bool) (n : Int) :
    List Nat × Except String (List Choice) :=
  genLoop pf config predInput chat 0 (effectiveN n).toNat

/-- Everything a request observably produces: the store after the request,
the inference invocations performed, and the response or error. -/
structure EndpointOut where
  store : ConfigMerger
  invocations : List Nat
  resp : Except ReqError OpenAIResponse

/-- Handler `openAIEndpoint` from `api/openai.go`, after body parsing: model
selection, companion-config load, config resolution, prompt building,
templating, inference creation, the sampling loop, and response assembly.
The response's model field echoes the request's model verbatim. -/
def openAIEndpoint (fs : FileSys) (l : Loader) (eng : InferenceEngine)
    (chat : Bool) (threads ctx : Int) (f16 : Bool)
    (cm : ConfigMerger) (input : OpenAIRequest) (bearer : String) : EndpointOut :=
  match selectModel l input.model bearer with
  | .error e => ⟨cm, [], .error e⟩
  | .ok modelFile =>
    match loadCompanion fs l cm modelFile with
    | .error e => ⟨cm, [], .error e⟩
    | .ok cm2 =>
      let config := resolveConfig cm2 modelFile input threads ctx f16
      let predInput := applyTemplate l (templateFileOf config chat)
        (buildPredInput config input chat)
      match eng.create predInput config with
      | .error e => ⟨cm2, [], .error (.inferenceCreate e)⟩
      | .ok pf =>
        match genSamples pf config predInput chat input.n with
        | (tr, .error e) => ⟨cm2, tr, .error (.inference e)⟩
        | (tr, .ok result) =>
          ⟨cm2, tr, .ok { model := input.model, choices := result }⟩

/-! ## Theorems -/

/-- Projection of the override merge at the top-k field. -/
theorem updateConfig_topK (config : Config) (input : OpenAIRequest) :
    (updateConfig config input).request.topK =
      if input.topK != 0 then input.topK else config.request.topK := by
  simp only [updateConfig]
  simp [apply_ite (fun c : Config => c.request.topK)]

/-- Projection of the override merge at the echo field. -/
theorem updateConfig_echo (config : Config) (input : OpenAIRequest) :
    (updateConfig config input).request.echo =
      if input.echo then input.echo else config.request.echo := by
  simp only [updateConfig]
  simp [apply_ite (fun c : Config => c.request.echo)]

/-- Projection of the override merge at the top-p field. -/
theorem updateConfig_topP (config : Config) (input : OpenAIRequest) :
    (updateConfig config input).request.topP =
      if input.topP != 0 then input.topP else config.request.topP := by
  simp only [updateConfig]
  simp [apply_ite (fun c : Config => c.request.topP)]

/-- Projection of the override merge at the temperature field. -/
theorem updateConfig_temperature (config : Config) (input : OpenAIRequest) :
    (updateConfig config input).request.temperature =
      if input.temperature != 0 then input.temperature
      else config.request.temperature := by
  simp only [updateConfig]
  simp [apply_ite (fun c : Config => c.request.temperature)]

/-- Projection of the override merge at the max-tokens field. -/
theorem updateConfig_maxtokens (config : Config) (input : OpenAIRequest) :
    (updateConfig config input).request.maxtokens =
      if input.maxtokens != 0 then input.maxtokens
      else config.request.maxtokens := by
  simp only [updateConfig]
  simp [apply_ite (fun c : Config => c.request.maxtokens)]

/-- Projection of the override merge at the stop-word list. -/
theorem updateConfig_stopWords (config : Config) (input : OpenAIRequest) :
    (updateConfig config input).stopWords =
      if input.stop != "" then config.stopWords ++ [input.stop]
      else config.stopWords := by
  simp only [updateConfig]
  simp [apply_ite (fun c : Config => c.stopWords)]

/-- Projection of the override merge at the repeat-penalty field. -/
theorem updateConfig_repeatPenalty (config : Config) (input : OpenAIRequest) :
    (updateConfig config input).request.repeatPenalty =
      if input.repeatPenalty != 0 then input.repeatPenalty
      else config.request.repeatPenalty := by
  simp only [updateConfig]
  simp [apply_ite (fun c : Config => c.request.repeatPenalty)]

/-- Projection of the override merge at the keep field. -/
theorem updateConfig_keep (config : Config) (input : OpenAIRequest) :
    (updateConfig config input).request.keep =
      if input.keep != 0 then input.keep else config.request.keep := by
  simp only [updateConfig]
  simp [apply_ite (fun c : Config => c.request.keep)]

/-- Projection of the override merge at the batch field. -/
theorem updateConfig_batch (config : Config) (input : OpenAIRequest) :
    (updateConfig config input).request.batch =
      if input.batch != 0 then input.batch else config.request.batch := by
  simp only [updateConfig]
  simp [apply_ite (fun c : Config => c.request.batch)]

/-- Projection of the override merge at the (outer, shadowing) f16 field. -/
theorem updateConfig_f16 (config : Config) (input : OpenAIRequest) :
    (updateConfig config input).f16 =
      if input.f16 then input.f16 else config.f16 := by
  simp only [updateConfig]
  simp [apply_ite (fun c : Config => c.f16)]

/-- Projection of the override merge at the ignore-EOS field. -/
theorem updateConfig_ignoreEOS (config : Config) (input : OpenAIRequest) :
    (updateConfig config input).request.ignoreEOS =
      if input.ignoreEOS then input.ignoreEOS
      else config.request.ignoreEOS := by
  simp only [updateConfig]
  simp [apply_ite (fun c : Config => c.request.ignoreEOS)]

/-- Projection of the override merge at the seed field. -/
theorem updateConfig_seed (config : Config) (input : OpenAIRequest) :
    (updateConfig config input).request.seed =
      if input.seed != 0 then input.seed else config.request.seed := by
  simp only [updateConfig]
  simp [apply_ite (fun c : Config => c.request.seed)]

/-- C1: each of the override fields echo, top-k, top-p, temperature,
max-tokens, repeat-penalty, keep, batch, f16, ignore-eos and seed follows
non-zero-wins: a zero/false override leaves the starting profile's value in
the resolved configuration, a non-zero/true override replaces it. -/
theorem claim_C1_nonzero_wins (config : Config) (input : OpenAIRequest) :
    ((updateConfig config input).request.echo =
      if input.echo then input.echo else config.request.echo)
    ∧ ((updateConfig config input).request.topK =
      if input.topK != 0 then input.topK else config.request.topK)
    ∧ ((updateConfig config input).request.topP =
      if input.topP != 0 then input.topP else config.request.topP)
    ∧ ((updateConfig config input).request.temperature =
      if input.temperature != 0 then input.temperature
      else config.request.temperature)
    ∧ ((updateConfig config input).request.maxtokens =
      if input.maxtokens != 0 then input.maxtokens
      else config.request.maxtokens)
    ∧ ((updateConfig config input).request.repeatPenalty =
      if input.repeatPenalty != 0 then input.repeatPenalty
      else config.request.repeatPenalty)
    ∧ ((updateConfig config input).request.keep =
      if input.keep != 0 then input.keep else config.request.keep)
    ∧ ((updateConfig config input).request.batch =
      if input.batch != 0 then input.batch else config.request.batch)
    ∧ ((updateConfig config input).f16 =
      if input.f16 then input.f16 else config.f16)
    ∧ ((updateConfig config input).request.ignoreEOS =
      if input.ignoreEOS then input.ignoreEOS
      else config.request.ignoreEOS)
    ∧ ((updateConfig config input).request.seed =
      if input.seed != 0 then input.seed else config.request.seed) :=
  ⟨updateConfig_echo config input, updateConfig_topK config input,
   updateConfig_topP config input, updateConfig_temperature config input,
   updateConfig_maxtokens config input, updateConfig_repeatPenalty config input,
   updateConfig_keep config input, updateConfig_batch config input,
   updateConfig_f16 config input, updateConfig_ignoreEOS config input,
   updateConfig_seed config input⟩

/-- C7: a non-empty stop override is appended to the profile's stop-word
list (the result has one more entry, starts with the original list in order
and ends with the supplied value); an empty stop override leaves the list
unchanged. -/
theorem claim_C7_stop_append (config : Config) (input : OpenAIRequest) :
    ((updateConfig config input).stopWords =
      if input.stop != "" then config.stopWords ++ [input.stop]
      else config.stopWords)
    ∧ (input.stop ≠ "" →
        (updateConfig config input).stopWords.length
          = config.stopWords.length + 1
        ∧ (updateConfig config input).stopWords.take config.stopWords.length
          = config.stopWords
        ∧ (updateConfig config input).stopWords.getLast? = some input.stop) := by
  refine ⟨updateConfig_stopWords config input, fun h => ?_⟩
  rw [updateConfig_stopWords config input]
  simp [h]

/-- Witness for C7 at a concrete profile and override. -/
theorem claim_C7_stop_append_witness :
    (updateConfig { stopWords := ["a", "b"] } { stop := "z" }).stopWords.length
      = (["a", "b"] : List String).length + 1 :=
  ((claim_C7_stop_append { stopWords := ["a", "b"] } { stop := "z" }).2
    (by decide)).1

/-- C2: model-selection precedence.  A non-empty bearer value naming an
existing model wins; otherwise an explicit request model wins; otherwise the
first listed model; with nothing listed the request fails with the
no-model error. -/
theorem claim_C2_model_precedence (l : Loader) (m b : String) :
    selectModel l m b =
      if bearerOk l b then .ok b
      else if m = "" then
        match modelsOf l with
        | [] => .error .noModel
        | x :: _ => .ok x
      else .ok m := by
  unfold selectModel
  cases hb : bearerOk l b <;> by_cases hm : m = "" <;>
    cases hmod : modelsOf l <;> simp [hb, hm, hmod]

/-- When every inference invocation succeeds, the sampling loop performs
exactly `fuel` invocations at the consecutive indices starting at `i` and
collects their post-processed choices in invocation order. -/
theorem genLoop_ok (pf : Nat → Except String String) (f : Nat → String)
    (config : Config) (predInput : String) (chat : Bool)
    (h : ∀ j, pf j = .ok (f j)) :
    ∀ (fuel i : Nat), genLoop pf config predInput chat i fuel =
      (List.range' i fuel,
       .ok ((List.range' i fuel).map
         (fun j => mkChoice chat (postProcess config predInput (f j))))) := by
  intro fuel
  induction fuel with
  | zero => intro i; simp [genLoop]
  | succ m ih =>
    intro i
    simp only [genLoop, h i, ih (i + 1), List.range'_succ, List.map_cons,
      Except.map]

/-- If invocation `i + k` is the first failing one inside the loop's budget,
the loop performs exactly the invocations `i, ..., i + k` and returns that
error. -/
theorem genLoop_err (pf : Nat → Except String String)
    (config : Config) (predInput : String) (chat : Bool) (e : String) :
    ∀ (k i fuel : Nat), k < fuel →
      pf (i + k) = .error e →
      (∀ d, d < k → ∃ s, pf (i + d) = .ok s) →
      genLoop pf config predInput chat i fuel =
        (List.range' i (k + 1), .error e) := by
  intro k
  induction k with
  | zero =>
    intro i fuel hfuel herr _
    match fuel, hfuel with
    | m + 1, _ =>
      simp only [Nat.add_zero] at herr
      simp [genLoop, herr, List.range'_succ]
  | succ k ih =>
    intro i fuel hfuel herr hok
    match fuel, hfuel with
    | m + 1, hfuel =>
      obtain ⟨s, hs⟩ := hok 0 (Nat.succ_pos k)
      rw [Nat.add_zero] at hs
      have herr' : pf (i + 1 + k) = .error e := by
        rw [show i + 1 + k = i + (k + 1) by omega]; exact herr
      have hok' : ∀ d, d < k → ∃ s, pf (i + 1 + d) = .ok s := by
        intro d hd
        have := hok (d + 1) (by omega)
        rwa [show i + (d + 1) = i + 1 + d by omega] at this
      have hm : k < m := by omega
      simp only [genLoop, hs, ih (i + 1) m hm herr' hok', List.range'_succ,
        Except.map]

/-- C3: with sample count N > 0 and all invocations succeeding, the
inference callable is invoked exactly N times at indices 0..N-1 and the
result holds exactly the N post-processed choices in invocation order; with
N = 0 exactly one invocation occurs; and the first failing invocation stops
the loop (exactly the invocations up to and including it happen) and turns
the whole result into that error, so no choice list is produced. -/
theorem claim_C3_sample_count (pf : Nat → Except String String)
    (f : Nat → String) (config : Config) (predInput : String) (chat : Bool)
    (n : Int) :
    (0 < n → (∀ j, pf j = .ok (f j)) →
      genSamples pf config predInput chat n =
        (List.range n.toNat,
         .ok ((List.range n.toNat).map
           (fun j => mkChoice chat (postProcess config predInput (f j))))))
    ∧ (n = 0 → (genSamples pf config predInput chat n).1 = [0])
    ∧ (∀ (k : Nat) (e : String), (k : Int) < effectiveN n →
        pf k = .error e → (∀ d, d < k → ∃ s, pf d = .ok s) →
        genSamples pf config predInput chat n =
          (List.range (k + 1), .error e)) := by
  refine ⟨fun hn hall => ?_, fun hn => ?_, fun k e hk herr hok => ?_⟩
  · have hEff : effectiveN n = n := by simp [effectiveN]; omega
    simp only [genSamples, hEff,
      genLoop_ok pf f config predInput chat hall n.toNat 0,
      List.range_eq_range']
  · subst hn
    have hEff : effectiveN 0 = 1 := by simp [effectiveN]
    cases hp : pf 0 <;>
      simp [genSamples, hEff, genLoop, hp]
  · have hkf : k < (effectiveN n).toNat := by omega
    have hok' : ∀ d, d < k → ∃ s, pf (0 + d) = .ok s := by
      intro d hd; simpa using hok d hd
    simp only [genSamples,
      genLoop_err pf config predInput chat e k 0 (effectiveN n).toNat hkf
        (by simpa using herr) hok',
      List.range_eq_range']

/-- Witness for C3 with N = 3 and an always-succeeding callable. -/
theorem claim_C3_sample_count_witness :
    genSamples (fun _ => .ok "s") {} "" false 3 =
      (List.range 3,
       .ok ((List.range 3).map
         (fun _ => mkChoice false (postProcess {} "" "s")))) :=
  (claim_C3_sample_count (fun _ => .ok "s") (fun _ => "s") {} "" false 3).1
    (by decide) (fun _ => rfl)

/-- C6: with echo enabled the (templated) input is prepended before the
cut-string and trim passes, so a cut-string equal to the input also deletes
the echoed text; concretely, input "Hello", cut-string "Hello" and sample
"Hello world" yield " world" (both occurrences removed). -/
theorem claim_C6_echo_before_cleanup :
    (∀ (p predInput pred : String) (config : Config),
      config.request.echo = true → config.cutstrings = [p] →
      config.trimSpace = [] →
      postProcess config predInput pred = removeAllStr p (predInput ++ pred))
    ∧ postProcess { request := { echo := true }, cutstrings := ["Hello"] }
        "Hello" "Hello world" = " world" := by
  constructor
  · intro p predInput pred config h1 h2 h3
    simp [postProcess, applyCuts, applyTrims, h1, h2, h3]
  · rfl

/-- Witness for C6's general part at a concrete echoing configuration. -/
theorem claim_C6_echo_before_cleanup_witness :
    postProcess { request := { echo := true }, cutstrings := ["Hi"] } "a" "b"
      = removeAllStr "Hi" ("a" ++ "b") :=
  claim_C6_echo_before_cleanup.1 "Hi" "a" "b"
    { request := { echo := true }, cutstrings := ["Hi"] } rfl rfl rfl

/-- A file system on which every configuration file exists but fails to
parse. -/
def fsBadYaml : FileSys where
  readConfig := fun _ => .error "yaml parse error"
  readConfigFile := fun _ => .error "yaml parse error"
  readDir := fun _ => .error "no such directory"
  statOk := fun _ => true

/-- A file system with no companion files at all. -/
def fsNone : FileSys where
  readConfig := fun _ => .error "no such file"
  readConfigFile := fun _ => .error "no such file"
  readDir := fun _ => .ok []
  statOk := fun _ => false

/-- A loader with no models listed and nothing in the model path. -/
def loaderEmpty : Loader where
  modelPath := "models"
  existsInModelPath := fun _ => false
  listModels := .ok []
  templateExpand := fun _ _ => .error "template not found"

/-- An inference engine that always fails to build the callable. -/
def engFail : InferenceEngine where
  create := fun _ _ => .error "engine failure"

/-- C4 counterexample: with model "m" selected successfully, a present but
malformed companion file makes the request fail with a config-load error,
which is not the no-model error — so NoModelError is not the only error the
config-resolution phase can return. -/
theorem claim_C4_counterexample :
    selectModel loaderEmpty "m" "" = .ok "m"
    ∧ (openAIEndpoint fsBadYaml loaderEmpty engFail false 0 0 false ∅
        { model := "m" } "").resp
      = .error (.configLoad "cannot read config file: yaml parse error")
    ∧ ReqError.configLoad "cannot read config file: yaml parse error"
      ≠ ReqError.noModel :=
  ⟨rfl, rfl, by decide⟩

/-- C4 (amended): model selection fails only with the no-model error, and the
companion-file load fails only with a config-load error; when no companion
file exists the store is returned unchanged, and when the companion file
parses the load succeeds — after a successful (or skipped) companion load the
remaining resolution steps are total. -/
theorem claim_C4_config_errors (fs : FileSys) (l : Loader) (cm : ConfigMerger)
    (mf m b : String) :
    (∀ e, selectModel l m b = .error e → e = .noModel)
    ∧ (∀ e, loadCompanion fs l cm mf = .error e → ∃ msg, e = .configLoad msg)
    ∧ (fs.statOk (pathJoin l.modelPath (mf ++ ".yaml")) = false →
        loadCompanion fs l cm mf = .ok cm)
    ∧ (fs.statOk (pathJoin l.modelPath (mf ++ ".yaml")) = true →
        ∀ cs, fs.readConfigFile (pathJoin l.modelPath (mf ++ ".yaml")) = .ok cs →
          loadCompanion fs l cm mf =
            .ok (cs.foldl (fun m c => cmInsert m c.name c) cm)) := by
  refine ⟨fun e he => ?_, fun e he => ?_, fun hs => ?_, fun hs cs hcs => ?_⟩
  · cases hb : bearerOk l m <;> cases hb' : bearerOk l b <;>
      by_cases hm : m = "" <;> cases hmod : modelsOf l <;>
      simp_all [selectModel]
  · unfold loadCompanion LoadConfig at he
    cases hstat : fs.statOk (pathJoin l.modelPath (mf ++ ".yaml")) <;>
      simp [hstat] at he
    cases hread : fs.readConfigFile (pathJoin l.modelPath (mf ++ ".yaml")) <;>
      simp [hread] at he
    exact ⟨_, he.symm⟩
  · simp [loadCompanion, hs]
  · simp [loadCompanion, LoadConfig, hs, hcs]

/-- Witness for C4's amended statement: with no companion file present the
load returns the store unchanged. -/
theorem claim_C4_config_errors_witness :
    loadCompanion fsNone loaderEmpty ∅ "m" = .ok ∅ :=
  (claim_C4_config_errors fsNone loaderEmpty ∅ "m" "m" "").2.2.1 rfl

/-- A file system whose single-profile files parse to the default config,
whose name is empty. -/
def fsEmptyName : FileSys where
  readConfig := fun _ => .ok {}
  readConfigFile := fun _ => .ok [{}]
  readDir := fun _ => .ok []
  statOk := fun _ => false

/-- C5 counterexample: loading a profile record whose name is empty does
insert an entry — keyed by the empty string — so the store does not keep the
non-empty-name invariant and the load is not a no-op. -/
theorem claim_C5_counterexample :
    LoadConfigFile fsEmptyName ∅ "profile" = .ok [("", {})]
    ∧ cmLookup [("", ({} : Config))] "" = some {} :=
  ⟨rfl, rfl⟩

/-- C5 (amended): every successfully parsed record is inserted keyed by its
name, even when the name is empty; the inserted entry is then found under
that (possibly empty) name. -/
theorem claim_C5_insert_empty_name (fs : FileSys) (cm : ConfigMerger)
    (file : String) (c : Config) (h : fs.readConfig file = .ok c) :
    LoadConfigFile fs cm file = .ok (cmInsert cm c.name c)
    ∧ cmLookup (cmInsert cm c.name c) c.name = some c := by
  constructor
  · simp [LoadConfigFile, h]
  · simp [cmLookup, cmInsert, List.find?]

/-- Witness for C5's amended statement on a concrete empty-name record. -/
theorem claim_C5_insert_empty_name_witness :
    LoadConfigFile fsEmptyName ∅ "profile" = .ok (cmInsert ∅ "" {}) :=
  (claim_C5_insert_empty_name fsEmptyName ∅ "profile" {} rfl).1

/-- A well-formed stored profile used by concrete load scenarios. -/
def cfgGood : Config := { name := "good-profile" }

/-- A directory with one well-formed and one malformed profile file. -/
def fsDir : FileSys where
  readConfig := fun p =>
    if p = "models/good.yaml" then .ok cfgGood else .error "bad yaml"
  readConfigFile := fun _ => .error "unused"
  readDir := fun _ => .ok ["good.yaml", "bad.yaml"]
  statOk := fun _ => false

/-- C8: a directory-listing failure is the only failure of the directory
load; any successful listing makes the load succeed; and with one
well-formed and one malformed candidate file, the load succeeds, the
well-formed profile is present afterwards and the malformed file contributes
nothing. -/
theorem claim_C8_directory_resilience (fs : FileSys) (cm : ConfigMerger)
    (path good bad : String) (cgood : Config) (ebad : String) :
    (∀ e, fs.readDir path = .error e → LoadConfigs fs cm path = .error e)
    ∧ (∀ files, fs.readDir path = .ok files →
        ∃ cm2, LoadConfigs fs cm path = .ok cm2)
    ∧ (fs.readDir path = .ok [good, bad] →
       strContains good ".yaml" = true → strContains bad ".yaml" = true →
       fs.readConfig (pathJoin path good) = .ok cgood →
       fs.readConfig (pathJoin path bad) = .error ebad →
       LoadConfigs fs cm path = .ok (cmInsert cm cgood.name cgood)
       ∧ cmLookup (cmInsert cm cgood.name cgood) cgood.name = some cgood) := by
  refine ⟨fun e he => by simp [LoadConfigs, he],
    fun files hf => ?_,
    fun hdir hg hb hgood hbad => ⟨?_, ?_⟩⟩
  · exact ⟨files.foldl (fun m f =>
      if strContains f ".yaml" then
        match fs.readConfig (pathJoin path f) with
        | .ok c => cmInsert m c.name c
        | .error _ => m
      else m) cm, by simp [LoadConfigs, hf]⟩
  · simp [LoadConfigs, hdir, hg, hb, hgood, hbad]
  · simp [cmLookup, cmInsert, List.find?]

/-- Witness for C8 on a concrete two-file directory. -/
theorem claim_C8_directory_resilience_witness :
    LoadConfigs fsDir ∅ "models" = .ok (cmInsert ∅ cfgGood.name cfgGood) :=
  ((claim_C8_directory_resilience fsDir ∅ "models" "good.yaml" "bad.yaml"
      cfgGood "bad yaml").2.2 rfl (by decide) (by decide) rfl rfl).1

/-- C9: the chat template is used in chat mode and the completion template in
completion mode when non-empty, with the resolved configuration's model
identifier as the fallback lookup key; failed template expansion keeps the
original input (no request failure), successful expansion replaces it. -/
theorem claim_C9_template_fallback (config : Config) (l : Loader)
    (inp : String) :
    (templateFileOf config true =
      if config.templateConfig.chat != "" then config.templateConfig.chat
      else config.request.model)
    ∧ (templateFileOf config false =
      if config.templateConfig.completion != "" then
        config.templateConfig.completion
      else config.request.model)
    ∧ (∀ tf e, l.templateExpand tf inp = .error e →
        applyTemplate l tf inp = inp)
    ∧ (∀ tf t, l.templateExpand tf inp = .ok t →
        applyTemplate l tf inp = t) := by
  refine ⟨?_, ?_, fun tf e he => by simp [applyTemplate, he],
    fun tf t ht => by simp [applyTemplate, ht]⟩
  · simp [templateFileOf]
  · simp [templateFileOf]

/-- Witness for C9: a missing template leaves the input untouched. -/
theorem claim_C9_template_fallback_witness :
    applyTemplate loaderEmpty "tmpl" "raw input" = "raw input" :=
  (claim_C9_template_fallback {} loaderEmpty "raw input").2.2.1
    "tmpl" "template not found" rfl

/-- Looking a key up after inserting a different key is unchanged. -/
theorem find_filter_ne (cm : List (String × Config)) (n k : String)
    (h : n ≠ k) :
    List.find? (fun p => p.1 == k) (List.filter (fun p => p.1 != n) cm)
      = List.find? (fun p => p.1 == k) cm := by
  induction cm with
  | nil => rfl
  | cons p rest ih =>
    obtain ⟨p1, p2⟩ := p
    by_cases hp : p1 = k
    · subst hp
      have h1 : (p1 != n) = true := by
        simp only [bne_iff_ne, ne_eq]
        exact fun hh => h hh.symm
      simp [List.filter, List.find?, h1]
    · have h2 : (p1 == k) = false := by simp [hp]
      cases h3 : (p1 != n) <;> simp [List.filter, List.find?, h2, h3, ih]

/-- Reading `cmLookup` after `cmInsert` at a different key is unchanged. -/
theorem cmLookup_insert_ne (cm : ConfigMerger) (n k : String) (c : Config)
    (h : n ≠ k) : cmLookup (cmInsert cm n c) k = cmLookup cm k := by
  unfold cmLookup cmInsert
  rw [List.find?_cons_of_neg _ (by simpa using h), find_filter_ne cm n k h]

/-- Folding a batch of inserts whose names all differ from `k` leaves the
lookup at `k` unchanged. -/
theorem cmLookup_foldl (cs : List Config) (k : String) :
    ∀ cm : ConfigMerger, (∀ c ∈ cs, c.name ≠ k) →
      cmLookup (cs.foldl (fun m c => cmInsert m c.name c) cm) k
        = cmLookup cm k := by
  induction cs with
  | nil => intro cm _; rfl
  | cons c rest ih =>
    intro cm h
    simp only [List.foldl_cons]
    rw [ih _ (fun c' hc' => h c' (List.mem_cons_of_mem _ hc')),
      cmLookup_insert_ne _ _ _ _ (h c (List.mem_cons_self _ _))]

/-- C10: the store a request leaves behind is exactly the outcome of the
companion-file load — the override merge and server-forced values never write
back to the store — and the companion load changes a stored entry only by
overwriting it with a config of the same name: when no companion file exists
the store is unchanged, and a loaded companion file leaves every name it
does not contain untouched. -/
theorem claim_C10_store_frame (fs : FileSys) (l : Loader)
    (eng : InferenceEngine) (chat : Bool) (threads ctx : Int) (f16 : Bool)
    (cm : ConfigMerger) (input : OpenAIRequest) (bearer : String) :
    ((openAIEndpoint fs l eng chat threads ctx f16 cm input bearer).store =
      match selectModel l input.model bearer with
      | .error _ => cm
      | .ok mf =>
        match loadCompanion fs l cm mf with
        | .error _ => cm
        | .ok cm2 => cm2)
    ∧ (∀ (mf : String) (cm2 : ConfigMerger) (k : String),
        loadCompanion fs l cm mf = .ok cm2 →
        (fs.statOk (pathJoin l.modelPath (mf ++ ".yaml")) = false → cm2 = cm)
        ∧ (∀ cs, fs.readConfigFile (pathJoin l.modelPath (mf ++ ".yaml"))
              = .ok cs → (∀ c ∈ cs, c.name ≠ k) →
            cmLookup cm2 k = cmLookup cm k)) := by
  constructor
  · simp only [openAIEndpoint]
    cases hsel : selectModel l input.model bearer with
    | error e => simp [hsel]
    | ok mf =>
      cases hload : loadCompanion fs l cm mf with
      | error e => simp [hsel, hload]
      | ok cm2 =>
        simp only [hsel, hload]
        generalize eng.create _ _ = ce
        cases ce with
        | error e => simp
        | ok pf =>
          cases hgs : genSamples pf (resolveConfig cm2 mf input threads ctx f16)
              (applyTemplate l
                (templateFileOf (resolveConfig cm2 mf input threads ctx f16)
                  chat)
                (buildPredInput (resolveConfig cm2 mf input threads ctx f16)
                  input chat))
              chat input.n with
          | mk tr res => cases res <;> simp [hgs]
  · intro mf cm2 k hload
    constructor
    · intro hstat
      simp [loadCompanion, hstat] at hload
      exact hload.symm
    · intro cs hcs hnames
      cases hstat : fs.statOk (pathJoin l.modelPath (mf ++ ".yaml")) with
      | false =>
        simp [loadCompanion, hstat] at hload
        rw [← hload]
      | true =>
        simp [loadCompanion, LoadConfig, hstat, hcs] at hload
        rw [← hload, cmLookup_foldl cs k cm hnames]

/-- A companion file holding exactly the good profile. -/
def fsComp : FileSys where
  readConfig := fun _ => .error "unused"
  readConfigFile := fun _ => .ok [cfgGood]
  readDir := fun _ => .error "unused"
  statOk := fun _ => true

/-- Witness for C10: a companion load carrying only `cfgGood` leaves the
lookup of an unrelated name unchanged. -/
theorem claim_C10_store_frame_witness :
    cmLookup (cmInsert (∅ : ConfigMerger) cfgGood.name cfgGood) "x"
      = cmLookup (∅ : ConfigMerger) "x" :=
  ((claim_C10_store_frame fsComp loaderEmpty engFail false 0 0 false ∅ {}
      "").2 "m" (cmInsert ∅ cfgGood.name cfgGood) "x" rfl).2
    [cfgGood] rfl (by decide)

end LocalAI
